import Mathlib

/-!
Verification of the course-search core in src/update.py: the aggregator
cache (get_all_courses), the title deduplication pass, the semantic
matcher (search_courses), the per-platform link resolution, the
scroll-to-bottom loop, and the card title extraction fallback chain.

Python strings are modelled as Lean String values, with the Python
string primitives used by the code (lower, strip, startswith, the in
operator) re-implemented over the character list so that they compute
in the kernel.  Machine floats (similarity scores, timestamps) are
modelled as Rat and Int respectively; the embedding model is abstracted
as a similarity function from corpus indices to scores, and the browser
environment of the scroll loop as a function from scroll counts to
observed page heights.
-/

namespace CoursesSearch

/-- Model of Python str.lower (ASCII case folding, as used on class
attributes and titles in update.py). -/
def pyLower (s : String) : String := ⟨s.data.map Char.toLower⟩

/-- Model of Python str.strip: drop whitespace from both ends. -/
def pyStrip (s : String) : String :=
  ⟨((s.data.dropWhile Char.isWhitespace).reverse.dropWhile Char.isWhitespace).reverse⟩

/-- Model of Python s.startswith(pre). -/
def pyStartswith (s pre : String) : Bool := pre.data.isPrefixOf s.data

/-- Model of the Python expression pat in s (substring containment). -/
def hasSubstr (s pat : String) : Bool := s.data.tails.any fun t => pat.data.isPrefixOf t

/-- A scraped course record, as built in extract_course_info /
scrape_platform: a dict with keys title, image_url, course_link,
platform. -/
structure Course where
  title : String
  image_url : String
  course_link : String
  platform : String
deriving DecidableEq

/-- CACHE_DURATION = 3600 (update.py line 35). -/
def CACHE_DURATION : Int := 3600

/-- The module-level cache of get_all_courses: the globals
cached_courses (None before the first successful build) and
last_cache_time. -/
structure AggState where
  cached_courses : Option (List Course)
  last_cache_time : Int
deriving DecidableEq

/-- One call of get_all_courses: the cache state it leaves behind, the
course list it returns, and how many platform scrapers it invoked. -/
structure AggOutcome where
  state : AggState
  result : List Course
  scrapersInvoked : Nat
deriving DecidableEq

/-- The dedup pass of get_all_courses (lines 363-369): walk all_courses
keeping a record only when it is truthy, its title is truthy (non-empty)
and the title was not seen before.  seen accumulates the titles already
kept. -/
def dedup_courses : List Course → List String → List Course
  | [], _ => []
  | c :: rest, seen =>
    if c.title ≠ "" ∧ c.title ∉ seen then
      c :: dedup_courses rest (c.title :: seen)
    else
      dedup_courses rest seen

/-- The rebuild arm of get_all_courses (lines 337-383): run every
registered scraper (their outputs are the scraperOutputs parameter; each
scraper call is wrapped in its own try and never contributes an
exception), concatenate, deduplicate, and replace the cache.  mergeOk is
false when an exception escapes the aggregation step itself (after the
scrapers ran, before any cache write), in which case the except handler
at line 377 returns the prior cache if present and an empty corpus
otherwise, leaving the cache state untouched. -/
def run_rebuild (st : AggState) (current_time : Int)
    (scraperOutputs : List (List Course)) (mergeOk : Bool) : AggOutcome :=
  if mergeOk then
    let all_courses := scraperOutputs.flatten
    let unique_courses := dedup_courses all_courses []
    ⟨⟨some unique_courses, current_time⟩, unique_courses, scraperOutputs.length⟩
  else
    match st.cached_courses with
    | some c => ⟨st, c, scraperOutputs.length⟩
    | none => ⟨st, [], scraperOutputs.length⟩

/-- get_all_courses (lines 327-383): serve the cache when it exists and
its age is strictly below CACHE_DURATION, otherwise rebuild. -/
def get_all_courses (st : AggState) (current_time : Int)
    (scraperOutputs : List (List Course)) (mergeOk : Bool) : AggOutcome :=
  match st.cached_courses with
  | some c =>
    if current_time - st.last_cache_time < CACHE_DURATION then ⟨st, c, 0⟩
    else run_rebuild st current_time scraperOutputs mergeOk
  | none => run_rebuild st current_time scraperOutputs mergeOk

/-- A search result dict as built in search_courses (lines 411-417). -/
structure RankedResult where
  title : String
  image_url : String
  course_link : String
  platform : String
  score : Rat
deriving DecidableEq

/-- What one search_courses call returns, together with the number of
model.encode calls it performed. -/
structure SearchOutcome where
  results : List RankedResult
  embedCalls : Nat
deriving DecidableEq

/-- Model of similarities.topk(k) (line 402): torch.topk raises when k
exceeds the number of elements (modelled as none, which the except
handler of search_courses turns into an empty result); otherwise it
yields the indices of the k largest similarities in descending value
order (stable in index order on ties). -/
def topk_indices (sims : List Rat) (k : Nat) : Option (List Nat) :=
  if k ≤ sims.length then
    some (((List.range sims.length).mergeSort fun i j =>
      decide (sims.getD j 0 ≤ sims.getD i 0)).take k)
  else none

/-- The candidate loop of search_courses (lines 404-423): walk the topk
indices, skip titles already seen, append a result dict otherwise, and
break as soon as 8 results are collected.  An index outside the frame
raises inside the per-result try and the loop continues (the none
branch). -/
def select_results (df : List Course) (sim : Nat → Rat) :
    List Nat → List String → List RankedResult → List RankedResult
  | [], _, results => results
  | i :: rest, seen, results =>
    match df.get? i with
    | none => select_results df sim rest seen results
    | some c =>
      if c.title ∈ seen then
        select_results df sim rest seen results
      else
        let new_results := results ++ [⟨c.title, c.image_url, c.course_link, c.platform, sim i⟩]
        if 8 ≤ new_results.length then new_results
        else select_results df sim rest (c.title :: seen) new_results

/-- search_courses (lines 385-429).  modelInit models whether the
module-level SentenceTransformer initialised; sim i is the cosine
similarity between the query embedding and the embedding of title i.
Embedding is attempted (two model.encode calls, lines 396-398) only
after the empty-frame and model-None early returns; the final line
re-sorts the collected results by descending score (Python sorted with
reverse=True, stable). -/
def search_courses (modelInit : Bool) (df : List Course) (sim : Nat → Rat) : SearchOutcome :=
  if df.isEmpty then ⟨[], 0⟩
  else if modelInit = false then ⟨[], 0⟩
  else
    let sims := (List.range df.length).map sim
    match topk_indices sims 30 with
    | none => ⟨[], 2⟩
    | some idxs =>
      ⟨(select_results df sim idxs [] []).mergeSort
        (fun a b => decide (b.score ≤ a.score)), 2⟩

/-- The link resolution of scrape_platform (lines 195-202, duplicated in
extract_course_info lines 114-121): an href that does not start with
http is prefixed with the base URL of the platform when the platform is
one of the three listed there, and is left unchanged otherwise. -/
def resolve_course_link (platform href : String) : String :=
  if pyStartswith href "http" then href
  else if platform = "Coursera" then "https://www.coursera.org" ++ href
  else if platform = "Udemy" then "https://www.udemy.com" ++ href
  else if platform = "Analytics Vidhya" then "https://courses.analyticsvidhya.com" ++ href
  else href

/-- The state of the while loop of scroll_to_bottom (lines 67-85):
last_height, retry_count, whether the break at line 82 fired, and how
many scrolls were performed so far. -/
structure ScrollState where
  last_height : Int
  retry_count : Nat
  stopped : Bool
  scrolls : Nat
deriving DecidableEq

/-- Step-indexed semantics of scroll_to_bottom: obs k is the page height
observed after the k-th scroll (obs 0 the initial height read at line
70).  State after n iterations of the while loop: an iteration runs only
while the loop has not broken and retry_count < max_scrolls (10); it
scrolls once, reads the new height, increments retry_count on an
unchanged height and resets it to 0 otherwise, and breaks once
retry_count reaches 3. -/
def scroll_step (obs : Nat → Int) : Nat → ScrollState
  | 0 => ⟨obs 0, 0, false, 0⟩
  | n + 1 =>
    let s := scroll_step obs n
    if s.stopped = true ∨ 10 ≤ s.retry_count then s
    else
      let new_height := obs (s.scrolls + 1)
      let retry := if new_height = s.last_height then s.retry_count + 1 else 0
      ⟨new_height, retry, decide (3 ≤ retry), s.scrolls + 1⟩

/-- A node inside a card, in document order: either a tag element (with
its name, class attribute and the text bs4 would return for it) or a
bare navigable string. -/
inductive Node where
  | tag (name : String) (classAttr : Option String) (text : String) : Node
  | str (s : String) : Node
deriving DecidableEq

/-- The class_ lambda of the title search (update.py line 172):
x and ('title' in x.lower() or 'heading' in x.lower() or 'name' in x.lower()). -/
def title_keyword_match (x : String) : Bool :=
  !(x == "") &&
    (hasSubstr (pyLower x) "title" || hasSubstr (pyLower x) "heading" ||
      hasSubstr (pyLower x) "name")

/-- Applying the class_ lambda to a possibly absent class attribute. -/
def class_attr_match : Option String → Bool
  | none => false
  | some x => title_keyword_match x

/-- Membership in the tag list of the title search. -/
def is_heading_name (t : String) : Bool := t == "h2" || t == "h3" || t == "h4"

/-- Method 1 of the title search (line 172): a heading element whose
class attribute satisfies the keyword lambda. -/
def is_class_heading : Node → Bool
  | .tag t c _ => is_heading_name t && class_attr_match c
  | .str _ => false

/-- Method 2 of the title search (line 176): any h2/h3/h4 element. -/
def is_any_heading : Node → Bool
  | .tag t _ _ => is_heading_name t
  | .str _ => false

/-- Method 3 of the title search (line 180): a string node whose
stripped length is strictly between 10 and 100. -/
def is_title_like_string : Node → Bool
  | .str s => decide (10 < (pyStrip s).data.length) && decide ((pyStrip s).data.length < 100)
  | .tag _ _ _ => false

/-- The three-method fallback chain of scrape_platform (lines 170-180):
bs4 find returns the first descendant matching the filter, modelled by
List.find? over the card's descendants in document order. -/
def find_title_tag (card : List Node) : Option Node :=
  match card.find? is_class_heading with
  | some n => some n
  | none =>
    match card.find? is_any_heading with
    | some n => some n
    | none => card.find? is_title_like_string

/-- The text taken from the chosen title tag (line 183): its stripped
text for an element, the stripped string itself for a string node. -/
def node_text : Node → String
  | .tag _ _ t => pyStrip t
  | .str s => pyStrip s

/-- The title extracted from a card, when any method succeeded. -/
def extract_title (card : List Node) : Option String :=
  (find_title_tag card).map node_text

/-- Concrete record for tests: first record of the spec scenario. -/
def courseA : Course := ⟨"Intro to Python", "", "http://a/1", "X"⟩

/-- Concrete record for tests: second record of the spec scenario,
  sharing the title of the first. -/
def courseB : Course := ⟨"Intro to Python", "", "http://b/2", "Y"⟩

/-- Concrete record for tests, with a distinct title. -/
def courseC : Course := ⟨"Data Science 101", "", "http://c/3", "Z"⟩

/-- C3: a get_all_courses call on a cache whose age is strictly below
the TTL returns the cached corpus itself, invokes no scraper and leaves
the cache entry unchanged; with no cache or an age at least the TTL,
every registered scraper is invoked (a full rebuild). -/
theorem claim_C3 (st : AggState) (t : Int) (outs : List (List Course)) (ok : Bool) :
    (∀ c, st.cached_courses = some c → t - st.last_cache_time < CACHE_DURATION →
      get_all_courses st t outs ok = ⟨st, c, 0⟩) ∧
    ((st.cached_courses = none ∨ CACHE_DURATION ≤ t - st.last_cache_time) →
      (get_all_courses st t outs ok).scrapersInvoked = outs.length) := by
  constructor
  · intro c hc hfresh
    simp [get_all_courses, hc, hfresh]
  · intro h
    have hreb : ∀ st2 : AggState, (run_rebuild st2 t outs ok).scrapersInvoked = outs.length := by
      intro st2
      cases ok
      · cases hc : st2.cached_courses <;> simp [run_rebuild, hc]
      · simp [run_rebuild]
    rcases h with h | h
    · simp [get_all_courses, h, hreb]
    · cases hc : st.cached_courses with
      | none => simp [get_all_courses, hc, hreb]
      | some c =>
        have hns : ¬ (t - st.last_cache_time < CACHE_DURATION) := not_lt.mpr h
        simp [get_all_courses, hc, hns, hreb]

/-- Witness for C3 at concrete inputs: a fresh cache is served as-is
with zero scrapers invoked, and an absent cache triggers a rebuild that
invokes the one registered scraper. -/
theorem claim_C3_witness :
    get_all_courses ⟨some [courseA], 0⟩ 100 [[courseC]] true =
      ⟨⟨some [courseA], 0⟩, [courseA], 0⟩ ∧
    (get_all_courses ⟨none, 0⟩ 100 [[courseC]] true).scrapersInvoked = 1 :=
  ⟨(claim_C3 ⟨some [courseA], 0⟩ 100 [[courseC]] true).1 [courseA] rfl (by decide),
   (claim_C3 ⟨none, 0⟩ 100 [[courseC]] true).2 (Or.inl rfl)⟩

/-- C4: when an exception escapes the merge step of a rebuild, the
cache entry is left untouched and the prior corpus (or an empty corpus
when none exists) is returned. -/
theorem claim_C4 (st : AggState) (t : Int) (outs : List (List Course))
    (hre : st.cached_courses = none ∨ CACHE_DURATION ≤ t - st.last_cache_time) :
    (get_all_courses st t outs false).state = st ∧
    (get_all_courses st t outs false).result = st.cached_courses.getD [] := by
  cases hc : st.cached_courses with
  | none => simp [get_all_courses, hc, run_rebuild]
  | some c =>
    have hns : ¬ (t - st.last_cache_time < CACHE_DURATION) := by
      rcases hre with h | h
      · rw [hc] at h; cases h
      · exact not_lt.mpr h
    simp [get_all_courses, hc, hns, run_rebuild]

/-- Witness for C4 at a concrete input: a stale cache plus a failing
merge serves the prior corpus and leaves the cache entry unchanged. -/
theorem claim_C4_witness :
    (get_all_courses ⟨some [courseA], 0⟩ 5000 [[courseC]] false).state = ⟨some [courseA], 0⟩ ∧
    (get_all_courses ⟨some [courseA], 0⟩ 5000 [[courseC]] false).result = [courseA] := by
  have h := claim_C4 ⟨some [courseA], 0⟩ 5000 [[courseC]] (Or.inr (by decide))
  exact ⟨h.1, h.2⟩

/-- C7: search_courses on an empty corpus returns an empty result with
no model.encode call attempted, and with the model uninitialised it
returns an empty result for every corpus; both conditions are ordinary
returns of the total model, not exceptions. -/
theorem claim_C7 :
    (∀ (modelInit : Bool) (sim : Nat → Rat), search_courses modelInit [] sim = ⟨[], 0⟩) ∧
    (∀ (df : List Course) (sim : Nat → Rat), (search_courses false df sim).results = []) := by
  constructor
  · intro modelInit sim
    rfl
  · intro df sim
    cases df with
    | nil => rfl
    | cons a l => rfl

/-- C6: on a non-empty corpus of fewer than 30 records, topk(k=30)
raises, the top-level handler catches, and search_courses returns the
empty list. -/
theorem claim_C6 (df : List Course) (sim : Nat → Rat) (hne : df ≠ [])
    (hlt : df.length < 30) :
    (search_courses true df sim).results = [] := by
  have hemp : df.isEmpty = false := by
    cases df with
    | nil => cases hne rfl
    | cons a l => rfl
  have htop : topk_indices ((List.range df.length).map sim) 30 = none := by
    simp only [topk_indices, List.length_map, List.length_range]
    rw [if_neg (by omega)]
  simp [search_courses, hemp, htop]

/-- Witness for C6 at a concrete input: a two-record corpus yields the
empty result. -/
theorem claim_C6_witness :
    (search_courses true [courseA, courseC] fun _ => 1).results = [] :=
  claim_C6 [courseA, courseC] (fun _ => 1) (by decide) (by decide)

/-- C5: evaluating the embedded search_courses at the spec scenario
(two records both titled Intro to Python, model initialised, any
positive similarity) returns the empty list, not the single ranked
result the spec promises: the topk call with k = 30 fails on a
2-element similarity vector and the handler returns []. -/
theorem claim_C5_code_eval :
    (search_courses true [courseA, courseB] fun _ => (4 : Rat) / 5).results = [] := rfl

/-- Auxiliary: a prefix of a list is also a prefix of that list
extended on the right. -/
lemma isPrefixOf_append_of (p a b : List Char) (h : p.isPrefixOf a = true) :
    p.isPrefixOf (a ++ b) = true := by
  induction p generalizing a with
  | nil => simp [List.isPrefixOf]
  | cons x xs ih =>
    cases a with
    | nil => simp [List.isPrefixOf] at h
    | cons y ys =>
      simp only [List.cons_append, List.isPrefixOf, Bool.and_eq_true] at h ⊢
      exact ⟨h.1, ih ys h.2⟩

/-- Auxiliary: prefixing any href with a base URL that itself starts
with http yields a string starting with http. -/
lemma pyStartswith_http_append (base h : String)
    (hb : pyStartswith base "http" = true) :
    pyStartswith (base ++ h) "http" = true := by
  unfold pyStartswith at hb ⊢
  rw [String.data_append]
  exact isPrefixOf_append_of _ _ _ hb

/-- C8 counterexample: a relative edX href is returned unchanged by the
link resolution step, so the produced course_link is not absolute. -/
theorem claim_C8_counterexample :
    resolve_course_link "edX" "/course/cs50" = "/course/cs50" ∧
    pyStartswith (resolve_course_link "edX" "/course/cs50") "http" = false := by
  constructor <;> decide

/-- C8 amended: the resolved link starts with http exactly when the
href already did or the platform is one of the three entries of the
base-URL table (Coursera, Udemy, Analytics Vidhya); for every other
platform a relative href is returned unchanged. -/
theorem claim_C8_amended (platform href : String) :
    pyStartswith (resolve_course_link platform href) "http" =
      (pyStartswith href "http" ||
        decide (platform = "Coursera" ∨ platform = "Udemy" ∨
          platform = "Analytics Vidhya")) := by
  by_cases hh : pyStartswith href "http" = true
  · simp [resolve_course_link, hh]
  · rw [Bool.not_eq_true] at hh
    by_cases h1 : platform = "Coursera"
    · subst h1
      have hres : resolve_course_link "Coursera" href = "https://www.coursera.org" ++ href := by
        simp [resolve_course_link, hh]
      rw [hres, pyStartswith_http_append "https://www.coursera.org" href (by decide), hh]
      decide
    by_cases h2 : platform = "Udemy"
    · subst h2
      have hres : resolve_course_link "Udemy" href = "https://www.udemy.com" ++ href := by
        simp [resolve_course_link, hh]
      rw [hres, pyStartswith_http_append "https://www.udemy.com" href (by decide), hh]
      decide
    by_cases h3 : platform = "Analytics Vidhya"
    · subst h3
      have hres : resolve_course_link "Analytics Vidhya" href =
          "https://courses.analyticsvidhya.com" ++ href := by
        simp [resolve_course_link, hh]
      rw [hres,
        pyStartswith_http_append "https://courses.analyticsvidhya.com" href (by decide), hh]
      decide
    · have hres : resolve_course_link platform href = href := by
        simp [resolve_course_link, hh, h1, h2, h3]
      have hd : decide (platform = "Coursera" ∨ platform = "Udemy" ∨
          platform = "Analytics Vidhya") = false := by
        simp [h1, h2, h3]
      rw [hres, hh, hd]
      decide

/-- Auxiliary: the dedup output is a sublist of its input. -/
lemma dedup_courses_sublist : ∀ (l : List Course) (seen : List String),
    List.Sublist (dedup_courses l seen) l := by
  intro l
  induction l with
  | nil => intro seen; simp [dedup_courses]
  | cons c rest ih =>
    intro seen
    simp only [dedup_courses]
    split
    · exact List.Sublist.cons₂ c (ih (c.title :: seen))
    · exact List.Sublist.cons c (ih seen)

/-- Auxiliary: every record kept by dedup has a non-empty title that is
not in the seen set. -/
lemma dedup_courses_mem : ∀ (l : List Course) (seen : List String) (c : Course),
    c ∈ dedup_courses l seen → c.title ≠ "" ∧ c.title ∉ seen := by
  intro l
  induction l with
  | nil => intro seen c h; simp [dedup_courses] at h
  | cons d rest ih =>
    intro seen c h
    simp only [dedup_courses] at h
    split at h
    case isTrue hk =>
      rcases List.mem_cons.mp h with rfl | hm
      · exact hk
      · have h2 := ih _ _ hm
        exact ⟨h2.1, fun hs => h2.2 (List.mem_cons_of_mem _ hs)⟩
    case isFalse hk =>
      exact ih _ _ h

/-- Auxiliary: the titles kept by dedup are pairwise distinct. -/
lemma dedup_courses_nodup : ∀ (l : List Course) (seen : List String),
    ((dedup_courses l seen).map Course.title).Nodup := by
  intro l
  induction l with
  | nil => intro seen; simp [dedup_courses]
  | cons d rest ih =>
    intro seen
    simp only [dedup_courses]
    split
    case isTrue hk =>
      simp only [List.map_cons, List.nodup_cons]
      refine ⟨?_, ih (d.title :: seen)⟩
      intro hmem
      rcases List.mem_map.mp hmem with ⟨c, hc, hteq⟩
      have h2 := (dedup_courses_mem rest (d.title :: seen) c hc).2
      exact h2 (by rw [hteq]; exact List.mem_cons_self _ _)
    case isFalse hk => exact ih seen

/-- Auxiliary: each record kept by dedup is the first record of the
input carrying its title. -/
lemma dedup_courses_first : ∀ (l : List Course) (seen : List String) (c : Course),
    c ∈ dedup_courses l seen →
    l.find? (fun d => d.title == c.title) = some c := by
  intro l
  induction l with
  | nil => intro seen c h; simp [dedup_courses] at h
  | cons d rest ih =>
    intro seen c h
    simp only [dedup_courses] at h
    split at h
    case isTrue hk =>
      rcases List.mem_cons.mp h with rfl | hm
      · exact List.find?_cons_of_pos _ (by simp)
      · have hmem := dedup_courses_mem rest (d.title :: seen) c hm
        have hne : d.title ≠ c.title := by
          intro he
          exact hmem.2 (by rw [← he]; exact List.mem_cons_self _ _)
        rw [List.find?_cons_of_neg _ (by simp [hne])]
        exact ih _ _ hm
    case isFalse hk =>
      have hmem := dedup_courses_mem rest seen c h
      have hne : d.title ≠ c.title := by
        intro he
        rcases not_and_or.mp hk with h1 | h1
        · push_neg at h1
          exact hmem.1 (by rw [← he, h1])
        · push_neg at h1
          exact hmem.2 (he ▸ h1)
      rw [List.find?_cons_of_neg _ (by simp [hne])]
      exact ih _ _ h

/-- Auxiliary: every input record with a non-empty title not yet seen
is represented in the dedup output. -/
lemma dedup_courses_complete : ∀ (l : List Course) (seen : List String) (c : Course),
    c ∈ l → c.title ≠ "" → c.title ∉ seen →
    ∃ d ∈ dedup_courses l seen, d.title = c.title := by
  intro l
  induction l with
  | nil => intro seen c h; cases h
  | cons a rest ih =>
    intro seen c hmem hne hns
    simp only [dedup_courses]
    split
    case isTrue hk =>
      rcases List.mem_cons.mp hmem with rfl | hm
      · exact ⟨c, List.mem_cons_self _ _, rfl⟩
      · by_cases he : c.title = a.title
        · exact ⟨a, List.mem_cons_self _ _, he.symm⟩
        · rcases ih (a.title :: seen) c hm hne (by
            intro hin
            rcases List.mem_cons.mp hin with h1 | h1
            · exact he h1
            · exact hns h1) with ⟨d, hd, hdt⟩
          exact ⟨d, List.mem_cons_of_mem _ hd, hdt⟩
    case isFalse hk =>
      rcases List.mem_cons.mp hmem with rfl | hm
      · rcases not_and_or.mp hk with h1 | h1
        · push_neg at h1
          exact absurd h1 hne
        · push_neg at h1
          exact absurd h1 hns
      · exact ih seen c hm hne hns

/-- C2: on any list of scraped records (all titles non-empty), the
dedup pass of get_all_courses yields pairwise-distinct titles, keeps
for each title exactly the first input record carrying it, preserves
the input order (the output is a sublist of the input), and keeps a
representative of every input title. -/
theorem claim_C2 (l : List Course) (hl : ∀ c ∈ l, c.title ≠ "") :
    ((dedup_courses l []).map Course.title).Nodup ∧
    List.Sublist (dedup_courses l []) l ∧
    (∀ c ∈ dedup_courses l [], l.find? (fun d => d.title == c.title) = some c) ∧
    (∀ c ∈ l, ∃ d ∈ dedup_courses l [], d.title = c.title) :=
  ⟨dedup_courses_nodup l [], dedup_courses_sublist l [],
   fun c hc => dedup_courses_first l [] c hc,
   fun c hc => dedup_courses_complete l [] c hc (hl c hc) (by simp)⟩

/-- Witness for C2 at a concrete input with a duplicated title. -/
theorem claim_C2_witness :
    ((dedup_courses [courseA, courseB, courseC] []).map Course.title).Nodup ∧
    List.Sublist (dedup_courses [courseA, courseB, courseC] []) [courseA, courseB, courseC] ∧
    (∀ c ∈ dedup_courses [courseA, courseB, courseC] [],
      [courseA, courseB, courseC].find? (fun d => d.title == c.title) = some c) ∧
    (∀ c ∈ [courseA, courseB, courseC],
      ∃ d ∈ dedup_courses [courseA, courseB, courseC] [], d.title = c.title) :=
  claim_C2 [courseA, courseB, courseC] (by decide)

/-- Auxiliary: the candidate loop of search_courses preserves the cap
of 8 and the distinctness of the collected titles, as long as every
collected title is recorded in the seen set. -/
lemma select_results_spec (df : List Course) (sim : Nat → Rat) :
    ∀ (idxs : List Nat) (seen : List String) (results : List RankedResult),
    results.length < 8 →
    (results.map RankedResult.title).Nodup →
    (∀ r ∈ results, r.title ∈ seen) →
    (select_results df sim idxs seen results).length ≤ 8 ∧
      ((select_results df sim idxs seen results).map RankedResult.title).Nodup := by
  intro idxs
  induction idxs with
  | nil =>
    intro seen results hlen hnd hsub
    simp only [select_results]
    exact ⟨Nat.le_of_lt hlen, hnd⟩
  | cons i rest ih =>
    intro seen results hlen hnd hsub
    simp only [select_results]
    cases hdf : df.get? i with
    | none => exact ih seen results hlen hnd hsub
    | some c =>
      dsimp only
      by_cases hseen : c.title ∈ seen
      · rw [if_pos hseen]
        exact ih seen results hlen hnd hsub
      · rw [if_neg hseen]
        set nr := results ++ [⟨c.title, c.image_url, c.course_link, c.platform, sim i⟩]
          with hnr
        have hlen2 : nr.length = results.length + 1 := by simp [hnr]
        have hnd2 : (nr.map RankedResult.title).Nodup := by
          rw [hnr, List.map_append]
          rw [List.nodup_append]
          refine ⟨hnd, by simp, ?_⟩
          intro t ht ht2
          simp only [List.map_cons, List.map_nil, List.mem_singleton] at ht2
          rcases List.mem_map.mp ht with ⟨r, hr, hteq⟩
          rw [ht2] at hteq
          exact hseen (hteq ▸ hsub r hr)
        by_cases h8 : 8 ≤ nr.length
        · rw [if_pos h8]
          exact ⟨by omega, hnd2⟩
        · rw [if_neg h8]
          refine ih (c.title :: seen) nr (by omega) hnd2 ?_
          intro r hr
          rw [hnr] at hr
          rcases List.mem_append.mp hr with hr1 | hr1
          · exact List.mem_cons_of_mem _ (hsub r hr1)
          · simp only [List.mem_singleton] at hr1
            rw [hr1]
            exact List.mem_cons_self _ _

/-- C1: for every corpus, similarity function and model state,
search_courses returns at most 8 results and no two returned results
share a title. -/
theorem claim_C1 (modelInit : Bool) (df : List Course) (sim : Nat → Rat) :
    (search_courses modelInit df sim).results.length ≤ 8 ∧
      ((search_courses modelInit df sim).results.map RankedResult.title).Nodup := by
  unfold search_courses
  by_cases hemp : df.isEmpty
  · rw [if_pos hemp]
    exact ⟨by simp, by simp⟩
  · rw [if_neg hemp]
    by_cases hmi : modelInit = false
    · rw [if_pos hmi]
      exact ⟨by simp, by simp⟩
    · rw [if_neg hmi]
      dsimp only
      cases htop : topk_indices ((List.range df.length).map sim) 30 with
      | none => exact ⟨by simp, by simp⟩
      | some idxs =>
        have hsel := select_results_spec df sim idxs [] [] (by simp) (by simp) (by simp)
        have hperm := List.mergeSort_perm (select_results df sim idxs [] [])
          (fun a b => decide (b.score ≤ a.score))
        constructor
        · simpa [hperm.length_eq] using hsel.1
        · exact ((hperm.map RankedResult.title).nodup_iff).mpr hsel.2

/-- Auxiliary: invariant of the scroll loop: retry_count never exceeds
3, and the loop has broken exactly when retry_count reached 3 (the
while guard retry_count < 10 can therefore never be the reason the loop
ends). -/
lemma scroll_step_inv (obs : Nat → Int) (n : Nat) :
    (scroll_step obs n).retry_count ≤ 3 ∧
      ((scroll_step obs n).stopped = true ↔ (scroll_step obs n).retry_count = 3) := by
  induction n with
  | zero => simp [scroll_step]
  | succ n ih =>
    rw [scroll_step]
    by_cases hstop : (scroll_step obs n).stopped = true ∨ 10 ≤ (scroll_step obs n).retry_count
    · rw [if_pos hstop]
      exact ih
    · rw [if_neg hstop]
      dsimp only
      have hns : (scroll_step obs n).stopped ≠ true := fun h => hstop (Or.inl h)
      have h3 : (scroll_step obs n).retry_count ≠ 3 := fun h => hns (ih.2.mpr h)
      have h1 := ih.1
      split
      · constructor
        · omega
        · simp only [decide_eq_true_eq]
          omega
      · constructor
        · omega
        · simp

/-- Auxiliary: when every scroll observes a new page height, the loop
never accumulates a retry and never stops: after n iterations it has
performed exactly n scrolls. -/
lemma scroll_step_changing (obs : Nat → Int) (hch : ∀ k, obs (k + 1) ≠ obs k) :
    ∀ n, scroll_step obs n = ⟨obs n, 0, false, n⟩ := by
  intro n
  induction n with
  | zero => rfl
  | succ n ih =>
    rw [scroll_step, ih]
    rw [if_neg (by simp)]
    dsimp only
    rw [if_neg (hch n)]
    rfl

/-- C9 amended: the scroll loop stops exactly when three consecutive
scrolls observe no height change (its retry counter never exceeds 3, so
the 10-bound of the while guard can never fire), and it is not bounded
by 10 attempts: when every scroll observes a new height, n loop
iterations perform exactly n scrolls, for every n. -/
theorem claim_C9_amended (obs : Nat → Int) (n : Nat) :
    ((scroll_step obs n).retry_count ≤ 3 ∧
      ((scroll_step obs n).stopped = true ↔ (scroll_step obs n).retry_count = 3)) ∧
    ((∀ k, obs (k + 1) ≠ obs k) → (scroll_step obs n).scrolls = n) :=
  ⟨scroll_step_inv obs n, fun hch => by rw [scroll_step_changing obs hch n]⟩

/-- C9 counterexample: with a page whose height grows at every scroll,
scroll_to_bottom has performed 11 scrolls after 11 loop iterations and
is still running, refuting the claimed bound of 10 scroll attempts per
invocation. -/
theorem claim_C9_counterexample :
    10 < (scroll_step (fun i => (i : Int)) 11).scrolls ∧
      (scroll_step (fun i => (i : Int)) 11).stopped = false := by
  decide

/-- Witness for the amended C9 at a concrete input: with strictly
growing heights, 5 iterations perform exactly 5 scrolls. -/
theorem claim_C9_witness :
    (scroll_step (fun i => (i : Int)) 5).scrolls = 5 :=
  (claim_C9_amended (fun i => (i : Int)) 5).2 (fun k => by omega)

/-- C10: whenever a card contains a heading whose class attribute
matches the title keywords, the title search returns the first such
class-matching heading, and the extracted title is that heading's text,
never the text of a plain heading or of the free-text fallback. -/
theorem claim_C10 (card : List Node)
    (h : ∃ n ∈ card, is_class_heading n = true) :
    ∃ n, card.find? is_class_heading = some n ∧ find_title_tag card = some n ∧
      is_class_heading n = true ∧ extract_title card = some (node_text n) := by
  have hs : (card.find? is_class_heading).isSome := List.find?_isSome.mpr h
  rcases Option.isSome_iff_exists.mp hs with ⟨n, hn⟩
  refine ⟨n, hn, ?_, List.find?_some hn, ?_⟩
  · simp [find_title_tag, hn]
  · simp [extract_title, find_title_tag, hn]

/-- Concrete card for tests: a free-text node and a plain heading come
before a class-matching heading in document order. -/
def card0 : List Node :=
  [Node.str "a sufficiently long text node", Node.tag "h3" none "Plain Heading",
   Node.tag "h2" (some "card-title") "Python Basics"]

/-- The class-matching heading of card0. -/
def titleNode0 : Node := Node.tag "h2" (some "card-title") "Python Basics"

/-- Witness for C10 at a concrete card: the class-matching heading is
chosen over the earlier plain heading and free-text node. -/
theorem claim_C10_witness :
    ∃ n, card0.find? is_class_heading = some n ∧ find_title_tag card0 = some n ∧
      is_class_heading n = true ∧ extract_title card0 = some (node_text n) :=
  claim_C10 card0 ⟨titleNode0, by decide, by decide⟩

end CoursesSearch
